import Mathlib

/-!
Shallow embedding of `src/lib/merge.js` of the automerge-action repository.

JavaScript values are embedded as follows: strings become `String`, a field
that may be `null`/`undefined` becomes an `Option`, booleans become `Bool`.
The remote service (octokit) is embedded by passing the data the remote calls
would return (check runs, reviews, outcomes of the retry-driven readiness wait
and merge attempt, cleanup errors) as explicit inputs, and the side effects the
code performs are recorded in an explicit effects record.
-/

namespace Automerge

/-- RetryOutcome is the tri-state result driving the retry loop: the string
values "success" / "failure" / "retry" returned by `checkReady`,
`checkMergeError` and `mergePullRequest` in `src/lib/merge.js`. -/
inductive RetryOutcome where
  | success
  | failure
  | retry
deriving DecidableEq, Repr

/-- Translation of `MAYBE_READY` (src/lib/merge.js line 3). -/
def MAYBE_READY : List String := ["clean", "has_hooks", "unknown", "unstable"]

/-- Translation of `NOT_READY` (src/lib/merge.js line 4). -/
def NOT_READY : List String := ["dirty", "draft"]

/-- Translation of `checkReady` (src/lib/merge.js lines 239-251).  The
`mergeable_state` field of the pull request may be a string, `null` or absent
(`undefined`); the JavaScript test `mergeable_state == null` is true exactly
for `null` and `undefined`, so both are embedded as `none`. -/
def checkReady (mergeable_state : Option String) : RetryOutcome :=
  match mergeable_state with
  | none => .success
  | some s =>
    if MAYBE_READY.contains s then .success
    else if NOT_READY.contains s then .failure
    else .retry

/-- Line terminators of JavaScript regular expressions: LF, CR, LS, PS.  A
regex `.` without the `s` (dotAll) flag matches any character except these. -/
def lineTerminators : List Char := ['\n', '\r', Char.ofNat 0x2028, Char.ofNat 0x2029]

/-- Flags of a JavaScript regular expression that are relevant to the regex
uses in `src/lib/merge.js`: `i` (ignoreCase), `s` (dotAll), `m` (multiline). -/
structure RegexFlags where
  ignoreCase : Bool
  dotAll : Bool
  multiline : Bool
deriving Repr, DecidableEq

/-- Reading of a JavaScript flags string, as passed to `new RegExp(src, flags)`:
each flag is active exactly when its letter occurs in the string. -/
def parseFlags (s : String) : RegexFlags :=
  { ignoreCase := s.data.contains 'i', dotAll := s.data.contains 's',
    multiline := s.data.contains 'm' }

/-- Modelled from the spec and the ECMAScript regex semantics: the fragment of
regular-expression sources that the embedding supports, sufficient for the
commit-message extraction patterns whose behaviour the claims exercise: a
sequence of literal characters optionally followed by a single capturing
group `(.*)`. -/
structure JsPattern where
  litChars : List Char
  hasGroup : Bool
deriving Repr, DecidableEq

/-- Source text of a fragment pattern, as it would be written in the
configuration string. -/
def JsPattern.source (p : JsPattern) : String :=
  String.mk p.litChars ++ (if p.hasGroup then "(.*)" else "")

/-- Character comparison of the regex engine: case-insensitive (by simple
upper-case folding) when the `i` flag is set, exact otherwise. -/
def charMatches (f : RegexFlags) (a b : Char) : Bool :=
  if f.ignoreCase then a.toUpper == b.toUpper else a == b

/-- Matches the literal part of a pattern against the front of the input,
returning the rest of the input on success. -/
def litMatchAt (f : RegexFlags) : List Char → List Char → Option (List Char)
  | [], s => some s
  | _ :: _, [] => none
  | a :: p, b :: s => if charMatches f a b then litMatchAt f p s else none

/-- Greedy `.*` at the current position: with the `s` (dotAll) flag it takes
the whole remaining input, without it it stops at the first line terminator. -/
def starCapture (f : RegexFlags) (s : List Char) : List Char :=
  if f.dotAll then s else s.takeWhile (fun c => !(lineTerminators.contains c))

/-- Group-1 value of a successful match starting at the given rest of input:
`some` the captured text when the pattern has its group, `none` (JavaScript
`undefined`, i.e. `m[1] === undefined`) when it does not. -/
def groupValue (p : JsPattern) (f : RegexFlags) (rest : List Char) : Option String :=
  if p.hasGroup then some (String.mk (starCapture f rest)) else none

/-- Search loop of `RegExp.prototype.exec`: try the pattern at each position
from left to right; `none` when there is no match, otherwise `some` the
group-1 value of the leftmost match. -/
def jsExecGo (p : JsPattern) (f : RegexFlags) : List Char → Option (Option String)
  | [] =>
    match litMatchAt f p.litChars [] with
    | some rest => some (groupValue p f rest)
    | none => none
  | c :: t =>
    match litMatchAt f p.litChars (c :: t) with
    | some rest => some (groupValue p f rest)
    | none => jsExecGo p f t

/-- Embedding of `new RegExp(source, flags).exec(body)` for fragment
patterns: `none` = no match (JavaScript `null`), `some g1` = a match whose
first capturing group is `g1` (`none` there = `undefined`). -/
def jsExec (p : JsPattern) (f : RegexFlags) (body : String) : Option (Option String) :=
  jsExecGo p f body.data

/-- White space stripped by JavaScript `String.prototype.trim`: WhiteSpace
(TAB, VT, FF, SP, NBSP, ZWNBSP and the Unicode space separators) together
with the line terminators. -/
def jsWhitespaceChar (c : Char) : Bool :=
  c == ' ' || c == '\t' || c == '\n' || c == Char.ofNat 0x0B || c == Char.ofNat 0x0C ||
    c == '\r' || c == Char.ofNat 0xA0 || c == Char.ofNat 0x1680 ||
    (0x2000 ≤ c.toNat && c.toNat ≤ 0x200A) ||
    c == Char.ofNat 0x2028 || c == Char.ofNat 0x2029 || c == Char.ofNat 0x202F ||
    c == Char.ofNat 0x205F || c == Char.ofNat 0x3000 || c == Char.ofNat 0xFEFF

/-- Embedding of JavaScript `String.prototype.trim`. -/
def jsTrim (s : String) : String :=
  String.mk (((s.data.dropWhile jsWhitespaceChar).reverse.dropWhile
    jsWhitespaceChar).reverse)

/-- A JavaScript error value: its `message` property may itself be absent. -/
structure JsError where
  message : Option String
deriving Repr

/-- Character-list helper: `dropPrefixCh p s` matches the characters of `p`
against the front of `s` and returns the remainder on success. -/
def dropPrefixCh : List Char → List Char → Option (List Char)
  | [], s => some s
  | _ :: _, [] => none
  | a :: p, b :: s => if a = b then dropPrefixCh p s else none

/-- Character-list helper: `hasSubstrCh p s` decides whether `p` occurs as a
contiguous substring of `s`; it embeds JavaScript `String.prototype.includes`. -/
def hasSubstrCh (p : List Char) : List Char → Bool
  | [] => (dropPrefixCh p []).isSome
  | c :: t => (dropPrefixCh p (c :: t)).isSome || hasSubstrCh p t

/-- String wrapper of `hasSubstrCh`: JavaScript `m.includes(needle)`. -/
def strIncludes (s needle : String) : Bool :=
  hasSubstrCh needle.data s.data

/-- Effective message of a possibly-absent error: the JavaScript expression
`e ? e.message || "" : ""` (src/lib/merge.js line 376).  `e.message || ""`
yields `""` both when `message` is absent and when it is the (falsy) empty
string, so it is `getD ""`. -/
def effectiveMessage (e : Option JsError) : String :=
  match e with
  | none => ""
  | some err => err.message.getD ""

/-- Translation of `checkMergeError` (src/lib/merge.js lines 375-387). -/
def checkMergeError (e : Option JsError) : RetryOutcome :=
  let m := effectiveMessage e
  if strIncludes m "review is required by reviewers with write access"
      || strIncludes m "reviews are required by reviewers with write access" then
    .failure
  else
    .retry

/-- A label attached to a pull request (only its name is consulted). -/
structure Label where
  name : String
deriving Repr, DecidableEq

/-- A check run attached to the head commit: a name and a conclusion, the
latter possibly still null (check not finished). -/
structure CheckRun where
  name : String
  conclusion : Option String
deriving Repr, DecidableEq

/-- A review of the pull request (only its state string is consulted). -/
structure Review where
  state : String
deriving Repr, DecidableEq

/-- The pull-request snapshot, restricted to the fields `src/lib/merge.js`
reads.  Nested accesses are flattened: `head.sha` becomes `head_sha`,
`head.repo.full_name` becomes `head_repo_full_name`, `user.login` becomes
`user_login`. -/
structure PullRequest where
  number : Nat
  title : String
  body : String
  state : String
  merged : Bool
  mergeable_state : Option String
  head_sha : String
  head_repo_full_name : String
  base_repo_full_name : String
  user_login : String
  labels : List Label
deriving Repr

/-- The label policy: blocking and required label-name sets. -/
structure MergeLabels where
  blocking : List String
  required : List String
deriving Repr

/-- The configuration fields `src/lib/merge.js` reads from `context.config`.
String options whose absence JavaScript tests by falsiness
(`mergeFilterAuthor`) are embedded as `String` with `""` meaning unset; the
extraction pattern is embedded as an optional fragment pattern
(`none` = unset); `mergeRequireStatuses` may be null (`none`) or a list. -/
structure Config where
  mergeMethod : String
  mergeCommitMessage : String
  mergeCommitMessageRegex : Option JsPattern
  mergeFilterAuthor : String
  mergeForks : Bool
  mergeLabels : MergeLabels
  mergeRemoveLabels : List String
  mergeRequireStatuses : Option (List String)
  mergeRequireApproval : Bool
  mergeDeleteBranch : Bool
  failOnMergeSkip : Bool
deriving Repr

/-- Required-check condition of `skipPullRequest` (src/lib/merge.js lines
187-205): some required name either has a matching check run whose conclusion
differs from "success", or has no matching check run at all.  Name comparison
is the JavaScript `==` on strings, which is exact (case-sensitive). -/
def requiredChecksFail (reqs : List String) (checks : List CheckRun) : Bool :=
  reqs.any (fun required =>
    checks.any (fun st =>
      st.name == required && !(st.conclusion == some "success")) ||
    !(checks.any (fun st => st.name == required)))

/-- Translation of `skipPullRequest` (src/lib/merge.js lines 147-224).  The
check-run list and the review list that `fetchChecks` / `fetchReviews` would
return are passed as explicit inputs; the boolean accumulates over the
conditions in source order exactly as the mutable `skip` variable does. -/
def skipPullRequest (cfg : Config) (pr : PullRequest)
    (checks : List CheckRun) (reviews : List Review) : Bool :=
  let skip0 := false
  let skip1 := if pr.state != "open" then true else skip0
  let skip2 := if pr.merged then true else skip1
  let skip3 :=
    if (pr.head_repo_full_name != pr.base_repo_full_name) && !cfg.mergeForks
    then true else skip2
  let labels := pr.labels.map (fun l => l.name)
  let skip4 :=
    if pr.labels.any (fun l => cfg.mergeLabels.blocking.contains l.name)
    then true else skip3
  let skip5 :=
    if cfg.mergeLabels.required.any (fun r => !(labels.contains r))
    then true else skip4
  let skip6 :=
    match cfg.mergeRequireStatuses with
    | none => skip5
    | some reqs => if requiredChecksFail reqs checks then true else skip5
  let skip7 :=
    if cfg.mergeRequireApproval &&
        ((reviews.filter (fun r => r.state == "APPROVED")).length == 0)
    then true else skip6
  skip7

/-- All skip conditions of `skipPullRequest` other than the required-check
condition are clear: state open, not merged, not a blocked fork, no blocking
label, all required labels present, approval not required.  Used to isolate
the required-check condition in the eligibility claims. -/
def nonCheckSkipsClear (cfg : Config) (pr : PullRequest) : Bool :=
  pr.state == "open" && !pr.merged &&
    (pr.head_repo_full_name == pr.base_repo_full_name || cfg.mergeForks) &&
    !(pr.labels.any (fun l => cfg.mergeLabels.blocking.contains l.name)) &&
    !(cfg.mergeLabels.required.any
      (fun r => !((pr.labels.map (fun l => l.name)).contains r))) &&
    !cfg.mergeRequireApproval

/-- Opening curly brace character, written by code point. -/
def braceO : Char := Char.ofNat 123

/-- Closing curly brace character, written by code point. -/
def braceC : Char := Char.ofNat 125

/-- Dollar-sign character, the escape character of JavaScript replacement
strings. -/
def dollarCh : Char := Char.ofNat 36

/-- Backquote character, used in the JavaScript `$`-escape that inserts the
text preceding the match. -/
def backquoteCh : Char := Char.ofNat 96

/-- Single-quote character, used in the JavaScript `$`-escape that inserts
the text following the match. -/
def quoteCh : Char := Char.ofNat 39

/-- Ampersand character, used in the JavaScript `$&` escape that inserts the
matched text. -/
def ampCh : Char := Char.ofNat 38

/-- Matcher for the placeholder regex `new RegExp("{pullRequest." ++ prop ++
"}", "g")` of `getCommitMessage` (src/lib/merge.js lines 307-312), applied
just after an opening brace: in that regex source the `.` is the regex
wildcard, so it matches the literal characters `pullRequest`, then any single
character that is not a line terminator (the regex has no `s` flag), then the
property name, then a closing brace.  Returns the wildcard character and the
input following the match. -/
def placeholderMatch (prop : List Char) (s : List Char) : Option (Char × List Char) :=
  match dropPrefixCh "pullRequest".data s with
  | none => none
  | some t =>
    match t with
    | [] => none
    | c :: t' =>
      if lineTerminators.contains c then none
      else
        match dropPrefixCh prop t' with
        | none => none
        | some u =>
          match u with
          | [] => none
          | d :: v => if d = braceC then some (c, v) else none

/-- Embedding of the ECMAScript GetSubstitution operation on the replacement
string for a regex with no capturing groups: `$$` inserts a dollar sign,
`$&` the matched text, a dollar followed by a backquote the text before the
match, a dollar followed by a quote the text after the match; any other
dollar sequence (including `$1`-style references, which exceed the group
count of the placeholder regexes) is left as it stands. -/
def getSubstitution (matched pre post : List Char) : List Char → List Char
  | [] => []
  | a :: rest =>
    if a = dollarCh then
      match rest with
      | [] => [a]
      | b :: rest' =>
        if b = dollarCh then dollarCh :: getSubstitution matched pre post rest'
        else if b = ampCh then matched ++ getSubstitution matched pre post rest'
        else if b = backquoteCh then pre ++ getSubstitution matched pre post rest'
        else if b = quoteCh then post ++ getSubstitution matched pre post rest'
        else a :: b :: getSubstitution matched pre post rest'
    else a :: getSubstitution matched pre post rest

/-- Fueled worker of `replaceGlobal`: scans the input left to right, replacing
every non-overlapping placeholder match by the substituted replacement string,
threading the text already consumed (for the backquote escape).  One unit of
fuel is spent per step, and every step consumes at least one input character,
so fuel `s.length` always suffices. -/
def replaceGlobalF (prop value : List Char) : Nat → List Char → List Char → List Char
  | 0, _, s => s
  | fuel + 1, pre, s =>
    match s with
    | [] => []
    | c :: cs =>
      if c = braceO then
        match placeholderMatch prop cs with
        | some (w, rest) =>
          let matched := braceO :: ("pullRequest".data ++ (w :: (prop ++ [braceC])))
          getSubstitution matched pre rest value ++
            replaceGlobalF prop value fuel (pre ++ matched) rest
        | none => c :: replaceGlobalF prop value fuel (pre ++ [c]) cs
      else c :: replaceGlobalF prop value fuel (pre ++ [c]) cs

/-- Embedding of JavaScript
`template.replace(new RegExp("{pullRequest." ++ prop ++ "}", "g"), value)`
as used by `getCommitMessage` (src/lib/merge.js lines 307-312). -/
def replaceGlobal (prop value s : List Char) : List Char :=
  replaceGlobalF prop value s.length [] s

/-- Translation of `getCommitMessage` (src/lib/merge.js lines 297-315):
`none` embeds the JavaScript `undefined` returned for mode "automatic".  For
a template mode the three placeholders are substituted in source order:
number, then title, then body, each globally. -/
def getCommitMessage (mergeCommitMessage : String) (pr : PullRequest) : Option String :=
  if mergeCommitMessage == "automatic" then none
  else if mergeCommitMessage == "pull-request-title" then some pr.title
  else if mergeCommitMessage == "pull-request-description" then some pr.body
  else if mergeCommitMessage == "pull-request-title-and-description" then
    some (pr.title ++ "\n\n" ++ pr.body)
  else
    let m1 := replaceGlobal "number".data (toString pr.number).data
      mergeCommitMessage.data
    let m2 := replaceGlobal "title".data pr.title.data m1
    let m3 := replaceGlobal "body".data pr.body.data m2
    some (String.mk m3)

/-- Fueled worker of `simpleWildReplace`; same scan as `replaceGlobalF` but
splicing the replacement in verbatim, without dollar-escape expansion. -/
def simpleWildReplaceF (prop value : List Char) : Nat → List Char → List Char
  | 0, s => s
  | fuel + 1, s =>
    match s with
    | [] => []
    | c :: cs =>
      if c = braceO then
        match placeholderMatch prop cs with
        | some (_, rest) => value ++ simpleWildReplaceF prop value fuel rest
        | none => c :: simpleWildReplaceF prop value fuel cs
      else c :: simpleWildReplaceF prop value fuel cs

/-- Global placeholder substitution with verbatim replacement: every
occurrence of an opening brace, `pullRequest`, one non-line-terminator
character, the property name and a closing brace is replaced by the value. -/
def simpleWildReplace (prop value s : List Char) : List Char :=
  simpleWildReplaceF prop value s.length s

/-- Fueled worker of `literalReplaceAll`. -/
def literalReplaceAllF (needle repl : List Char) : Nat → List Char → List Char
  | 0, s => s
  | fuel + 1, s =>
    match s with
    | [] => []
    | c :: cs =>
      match needle with
      | [] => c :: cs
      | _ :: _ =>
        match dropPrefixCh needle (c :: cs) with
        | some rest => repl ++ literalReplaceAllF needle repl fuel rest
        | none => c :: literalReplaceAllF needle repl fuel cs

/-- Global replacement of a literal (non-empty) needle by a verbatim
replacement string, leftmost-first and non-overlapping. -/
def literalReplaceAll (needle repl s : List Char) : List Char :=
  literalReplaceAllF needle repl s.length s

/-- Modelled from the spec: the literal placeholder for a pull-request
property, e.g. `{pullRequest.number}`, with the dot as a plain character. -/
def literalPlaceholder (prop : String) : List Char :=
  braceO :: (("pullRequest." ++ prop).data ++ [braceC])

/-- Modelled from the spec: the commit-message composer as the claim words
it, with the template placeholders treated as literal strings and the
replacement values spliced in verbatim (global substitution, number then
title then body). -/
def getCommitMessageClaim (mergeCommitMessage : String) (pr : PullRequest) :
    Option String :=
  if mergeCommitMessage == "automatic" then none
  else if mergeCommitMessage == "pull-request-title" then some pr.title
  else if mergeCommitMessage == "pull-request-description" then some pr.body
  else if mergeCommitMessage == "pull-request-title-and-description" then
    some (pr.title ++ "\n\n" ++ pr.body)
  else
    let m1 := literalReplaceAll (literalPlaceholder "number")
      (toString pr.number).data mergeCommitMessage.data
    let m2 := literalReplaceAll (literalPlaceholder "title") pr.title.data m1
    let m3 := literalReplaceAll (literalPlaceholder "body") pr.body.data m2
    some (String.mk m3)

/-- Error raised for an extraction pattern without a capturing group
(src/lib/merge.js lines 48-50). -/
def regexErrorMsg (pat : JsPattern) : String :=
  "MERGE_COMMIT_MESSAGE_REGEX must contain a capturing subgroup: " ++
    String.mk [quoteCh] ++ pat.source ++ String.mk [quoteCh]

/-- Error raised when a skipped pull request meets the fail-on-skip flag
(src/lib/merge.js line 9). -/
def skipErrorMsg : String :=
  "Pull request is skipped with FAIL_ON_MERGE_SKIP set to " ++
    String.mk [quoteCh] ++ "true" ++ String.mk [quoteCh] ++ "."

/-- Translation of the commit-message extraction step of `merge`
(src/lib/merge.js lines 43-54): when a pattern is configured, execute it with
flags "sm" against the body; on a match whose first group is undefined raise
the configuration error, on a match with a captured group replace the body by
the trimmed capture, otherwise leave the body alone. -/
def regexStep (pat? : Option JsPattern) (body : String) : Except String String :=
  match pat? with
  | none => .ok body
  | some pat =>
    match jsExec pat (parseFlags "sm") body with
    | none => .ok body
    | some g1 =>
      match g1 with
      | none => .error (regexErrorMsg pat)
      | some g => .ok (jsTrim g)

/-- Reading of the claim's extraction step (claim C5): identical to
`regexStep` except that the pattern is executed with case-insensitive
(besides multiline and dot-all) semantics, i.e. with flags "smi". -/
def regexStepClaim (pat? : Option JsPattern) (body : String) : Except String String :=
  match pat? with
  | none => .ok body
  | some pat =>
    match jsExec pat (parseFlags "smi") body with
    | none => .ok body
    | some g1 =>
      match g1 with
      | none => .error (regexErrorMsg pat)
      | some g => .ok (jsTrim g)

/-- Outcomes of the remote interactions of `merge`, passed as explicit inputs:
whether the retry-driven readiness wait (`waitUntilReady`) reports ready,
whether the retry-driven merge attempt (`tryMerge`) reports merged, and
whether either post-merge cleanup call throws (`some msg` = it throws). -/
structure RemoteOutcome where
  readyResult : Bool
  mergeResult : Bool
  removeLabelsError : Option String
  deleteBranchError : Option String
deriving Repr

/-- Observable side effects of one `merge` invocation: whether the readiness
wait ran, the body value after the extraction step (present once that step
completed), the composed commit message (present once composition ran),
and whether the merge call, label removal and branch deletion were
attempted. -/
structure MergeEffects where
  readinessWaited : Bool
  bodyAfterRegex : Option String
  composedMessage : Option (Option String)
  mergeAttempted : Bool
  removeLabelsAttempted : Bool
  deleteBranchAttempted : Bool
deriving Repr, DecidableEq

/-- Effects record before anything has run. -/
def initEffects : MergeEffects :=
  { readinessWaited := false, bodyAfterRegex := none, composedMessage := none,
    mergeAttempted := false, removeLabelsAttempted := false,
    deleteBranchAttempted := false }

/-- Translation of `merge` (src/lib/merge.js lines 6-91).  The result is the
JavaScript return value (`.ok`) or thrown error (`.error`), paired with the
effects record.  The post-merge cleanup calls sit inside try/catch blocks
whose handlers only log, so their outcomes (the error fields of
`RemoteOutcome`) influence neither the result nor the later effects — the
branch-deletion block runs whenever its flag is set, regardless of the
label-removal outcome. -/
def merge (cfg : Config) (pr : PullRequest) (checks : List CheckRun)
    (reviews : List Review) (remote : RemoteOutcome) :
    Except String Bool × MergeEffects :=
  if skipPullRequest cfg pr checks reviews then
    if cfg.failOnMergeSkip then (.error skipErrorMsg, initEffects)
    else (.ok false, initEffects)
  else
    let e1 : MergeEffects := { initEffects with readinessWaited := true }
    if !remote.readyResult then (.ok false, e1)
    else
      match regexStep cfg.mergeCommitMessageRegex pr.body with
      | .error msg => (.error msg, e1)
      | .ok newBody =>
        let pr2 : PullRequest := { pr with body := newBody }
        let e2 : MergeEffects := { e1 with bodyAfterRegex := some newBody }
        if cfg.mergeFilterAuthor != "" &&
            pr2.user_login != cfg.mergeFilterAuthor then
          (.ok false, e2)
        else
          let commitMessage := getCommitMessage cfg.mergeCommitMessage pr2
          let e3 : MergeEffects := { e2 with
            composedMessage := some commitMessage, mergeAttempted := true }
          if !remote.mergeResult then (.ok false, e3)
          else
            let e4 : MergeEffects := { e3 with removeLabelsAttempted := true }
            let e5 : MergeEffects :=
              if cfg.mergeDeleteBranch then
                { e4 with deleteBranchAttempted := true }
              else e4
            (.ok true, e5)

/-- Concrete configuration requiring the check run named "ci", with every
other skip condition disabled. -/
def cfgChecks : Config :=
  { mergeMethod := "merge", mergeCommitMessage := "automatic",
    mergeCommitMessageRegex := none, mergeFilterAuthor := "",
    mergeForks := false, mergeLabels := ⟨[], []⟩, mergeRemoveLabels := [],
    mergeRequireStatuses := some ["ci"], mergeRequireApproval := false,
    mergeDeleteBranch := false, failOnMergeSkip := false }
/-- Concrete open, unmerged, non-fork pull request with no labels. -/
def prBase : PullRequest :=
  { number := 1, title := "t", body := "b", state := "open", merged := false,
    mergeable_state := some "clean", head_sha := "sha",
    head_repo_full_name := "o/r", base_repo_full_name := "o/r",
    user_login := "alice", labels := [] }
/-- Two check runs that both bear the required name "ci" and both concluded
with success. -/
def dupChecks : List CheckRun :=
  [⟨"ci", some "success"⟩, ⟨"ci", some "success"⟩]
/-- Reading of the claim's check condition: every required name matches
exactly one check run whose conclusion equals the success sentinel. -/
def exactlyOneSuccessMatch (reqs : List String) (checks : List CheckRun) : Prop :=
  ∀ r ∈ reqs,
    (checks.filter (fun c => c.name == r && c.conclusion == some "success")).length = 1
/-- Concrete configuration with no skip-inducing requirements at all. -/
def cfgPlain : Config :=
  { mergeMethod := "merge", mergeCommitMessage := "automatic",
    mergeCommitMessageRegex := none, mergeFilterAuthor := "",
    mergeForks := false, mergeLabels := ⟨[], []⟩, mergeRemoveLabels := [],
    mergeRequireStatuses := none, mergeRequireApproval := false,
    mergeDeleteBranch := false, failOnMergeSkip := false }
/-- Remote outcomes where readiness and the merge call both succeed and the
cleanup calls do not throw. -/
def remoteGood : RemoteOutcome :=
  { readyResult := true, mergeResult := true, removeLabelsError := none,
    deleteBranchError := none }
/-- Pattern `A(.*)`: the literal character A followed by a capturing group. -/
def patA : JsPattern := ⟨['A'], true⟩
/-- Pattern `X:(.*)`: a literal prefix followed by a capturing group. -/
def patX : JsPattern := ⟨['X', ':'], true⟩
/-- Pattern `X:` with no capturing group. -/
def patNoGroup : JsPattern := ⟨['X', ':'], false⟩


/-- Configuration with the extraction pattern `X:(.*)`. -/
def cfgRegX : Config := { cfgPlain with mergeCommitMessageRegex := some patX }

/-- Configuration with the groupless extraction pattern `X:`. -/
def cfgNoGroup : Config :=
  { cfgPlain with mergeCommitMessageRegex := some patNoGroup }

/-- Configuration with the extraction pattern `A(.*)`. -/
def cfgRegA : Config := { cfgPlain with mergeCommitMessageRegex := some patA }

/-- Configuration with branch deletion enabled. -/
def cfgDel : Config := { cfgPlain with mergeDeleteBranch := true }

/-- Configuration with author filter "bob" and the fail-on-skip flag set. -/
def cfgAuthor : Config :=
  { cfgPlain with
    mergeFilterAuthor := "bob"
    failOnMergeSkip := true }

/-- Configuration with the fail-on-skip flag set. -/
def cfgSkipFail : Config := { cfgPlain with failOnMergeSkip := true }

/-- Pull request whose body is "a hello". -/
def prALower : PullRequest := { prBase with body := "a hello" }

/-- Pull request whose body is "X:  note " (extraction pattern target). -/
def prXBody : PullRequest := { prBase with body := "X:  note " }

/-- Pull request whose body is "X: note". -/
def prXNote : PullRequest := { prBase with body := "X: note" }

/-- Closed pull request. -/
def prClosed : PullRequest := { prBase with state := "closed" }

/-- Remote outcomes where everything succeeds except that both cleanup calls
throw. -/
def remoteBoom : RemoteOutcome :=
  { remoteGood with
    removeLabelsError := some "boom"
    deleteBranchError := some "boom" }


/-- Template containing `{pullRequest_number}` — an underscore where the
claim's literal placeholder has a dot (built from characters to keep braces
out of string literals). -/
def tmplWild : String :=
  String.mk ((braceO :: "pullRequest_number".data) ++ [braceC])

/-- Template `PR {pullRequest.number}: ok` with a genuine dot placeholder. -/
def tmplDemo : String :=
  String.mk ("PR ".data ++ (braceO :: "pullRequest.number".data) ++
    (braceC :: ": ok".data))

end Automerge

namespace Automerge

/-- Helper: `List.contains` agrees with membership (strings have a lawful
equality test). -/
theorem list_contains_iff (l : List String) (s : String) :
    l.contains s = true ↔ s ∈ l := List.elem_iff

/-- C1: the readiness classifier yields success for mergeable-state
clean, has_hooks, unknown, unstable and for null/absent; failure for dirty and
draft; retry for any other string. -/
theorem checkReady_classification (ms : Option String) :
    (checkReady ms = .success ↔
      (ms = none ∨ ms = some "clean" ∨ ms = some "has_hooks" ∨
        ms = some "unknown" ∨ ms = some "unstable")) ∧
    (checkReady ms = .failure ↔ (ms = some "dirty" ∨ ms = some "draft")) ∧
    (checkReady ms = .retry ↔
      ∃ s, ms = some s ∧ s ∉ MAYBE_READY ∧ s ∉ NOT_READY) := by
  match ms with
  | none => simp [checkReady]
  | some s =>
    simp only [checkReady, list_contains_iff, MAYBE_READY, NOT_READY,
      List.mem_cons, List.not_mem_nil, or_false, Option.some.injEq]
    by_cases h1 : s = "clean" <;> by_cases h2 : s = "has_hooks" <;>
      by_cases h3 : s = "unknown" <;> by_cases h4 : s = "unstable" <;>
      by_cases h5 : s = "dirty" <;> by_cases h6 : s = "draft" <;>
      simp_all

/-- C2 counterexample: an absent (undefined) mergeable-state does NOT yield
the retry outcome — `mergeable_state == null` is true for `undefined` in
JavaScript, so `checkReady` returns success. -/
theorem checkReady_absent_not_retry :
    checkReady none ≠ RetryOutcome.retry := by
  decide

/-- C2 amended: a pull-request snapshot whose mergeable-state is absent
(missing/undefined) is treated the same as null, namely as probably ready:
the classifier yields the success outcome, not the retry or failure one. -/
theorem checkReady_absent_success :
    checkReady none = RetryOutcome.success ∧
      checkReady none ≠ RetryOutcome.failure := by
  decide

/-- C3 counterexample: an error whose message contains only the plural phrase
"reviews are required by reviewers with write access" (and not the singular
phrase of the claim) is still classified as the terminal failure outcome. -/
theorem checkMergeError_plural_phrase_failure :
    checkMergeError
        (some ⟨some "2 reviews are required by reviewers with write access."⟩) =
      RetryOutcome.failure ∧
    strIncludes "2 reviews are required by reviewers with write access."
        "review is required by reviewers with write access" = false := by
  constructor
  · rfl
  · rfl

/-- C3 amended: the merge-error classifier returns the terminal failure
outcome exactly when the effective error message contains the phrase
"review is required by reviewers with write access" or the phrase
"reviews are required by reviewers with write access", and the retry outcome
for every other message. -/
theorem checkMergeError_classification (e : Option JsError) :
    (checkMergeError e = RetryOutcome.failure ↔
      (strIncludes (effectiveMessage e)
          "review is required by reviewers with write access" = true ∨
        strIncludes (effectiveMessage e)
          "reviews are required by reviewers with write access" = true)) ∧
    (checkMergeError e = RetryOutcome.retry ↔
      ¬ (strIncludes (effectiveMessage e)
          "review is required by reviewers with write access" = true ∨
        strIncludes (effectiveMessage e)
          "reviews are required by reviewers with write access" = true)) := by
  simp only [checkMergeError, Bool.or_eq_true]
  by_cases h : (strIncludes (effectiveMessage e)
      "review is required by reviewers with write access" = true ∨
    strIncludes (effectiveMessage e)
      "reviews are required by reviewers with write access" = true) <;>
    simp [h]





/-- Helper: the required-check condition fails to hold exactly when some
required name is absent or borne by a run with a non-success conclusion. -/
theorem requiredChecksFail_eq_false_iff (reqs : List String)
    (checks : List CheckRun) :
    requiredChecksFail reqs checks = false ↔
      ∀ r ∈ reqs, (∃ c ∈ checks, c.name = r) ∧
        ∀ c ∈ checks, c.name = r → c.conclusion = some "success" := by
  simp only [requiredChecksFail, List.any_eq_false, Bool.or_eq_true,
    List.any_eq_true, Bool.and_eq_true, beq_iff_eq, Bool.not_eq_true',
    Bool.not_eq_true, not_or, not_exists, not_and]
  constructor
  · intro h r hr
    obtain ⟨hgood, hfound⟩ := h r hr
    push_neg at hfound
    obtain ⟨c, hcmem, hcname⟩ := hfound
    refine ⟨⟨c, hcmem, hcname⟩, ?_⟩
    intro c' hc' hname
    have hx := hgood c' hc' hname
    simpa using hx
  · intro h r hr
    obtain ⟨⟨c, hcmem, hcname⟩, hall⟩ := h r hr
    refine ⟨?_, ?_⟩
    · intro c' hc' hname
      simp [hall c' hc' hname]
    · push_neg
      exact ⟨c, hcmem, hcname⟩

/-- C4 counterexample: with required check "ci" and two check runs both named
"ci" and both successful, the required name does not match exactly one
successful run, yet the eligibility check does not skip the pull request. -/
theorem skipPullRequest_not_exactly_one :
    skipPullRequest cfgChecks prBase dupChecks [] = false ∧
      ¬ exactlyOneSuccessMatch ["ci"] dupChecks := by
  unfold exactlyOneSuccessMatch
  decide

/-- C4 amended: when required check names are configured and every other skip
condition is clear, the eligibility check skips the pull request unless every
required name is borne by at least one check run and every check run bearing
that name has conclusion success (case-sensitively); a required name that is
absent, or present with a non-success conclusion, causes a skip. -/
theorem skipPullRequest_required_checks (cfg : Config) (pr : PullRequest)
    (checks : List CheckRun) (reviews : List Review) (reqs : List String)
    (hcfg : cfg.mergeRequireStatuses = some reqs)
    (hother : nonCheckSkipsClear cfg pr = true) :
    skipPullRequest cfg pr checks reviews = false ↔
      ∀ r ∈ reqs, (∃ c ∈ checks, c.name = r) ∧
        ∀ c ∈ checks, c.name = r → c.conclusion = some "success" := by
  simp only [nonCheckSkipsClear, Bool.and_eq_true, beq_iff_eq,
    Bool.not_eq_true', Bool.or_eq_true] at hother
  obtain ⟨⟨⟨⟨⟨hstate, hmerged⟩, hfork⟩, hblock⟩, hreq⟩, happr⟩ := hother
  have hskip : skipPullRequest cfg pr checks reviews =
      requiredChecksFail reqs checks := by
    rcases hfork with h | h <;>
      [skip; skip] <;>
      · simp [skipPullRequest, hcfg, hstate, hmerged, happr, hblock, hreq, h]
        rintro (⟨r, hrmem, hmiss⟩ | ⟨l, hlmem, hbl⟩)
        · rw [List.any_eq_false] at hreq
          have hx := hreq r hrmem
          simp only [Bool.not_eq_true', Bool.not_eq_false,
            list_contains_iff, List.mem_map] at hx
          obtain ⟨l, hl, hname⟩ := hx
          exact absurd hname (hmiss l hl)
        · rw [List.any_eq_false] at hblock
          have hx := hblock l hlmem
          rw [list_contains_iff] at hx
          exact absurd hbl hx
  rw [hskip, requiredChecksFail_eq_false_iff]






/-- C4 amended witness: the configuration requiring check "ci" with a single
successful "ci" run does not skip. -/
theorem skipPullRequest_required_checks_witness :
    cfgChecks.mergeRequireStatuses = some ["ci"] ∧
    nonCheckSkipsClear cfgChecks prBase = true ∧
    (skipPullRequest cfgChecks prBase [⟨"ci", some "success"⟩] [] = false ↔
      ∀ r ∈ ["ci"], (∃ c ∈ [CheckRun.mk "ci" (some "success")], c.name = r) ∧
        ∀ c ∈ [CheckRun.mk "ci" (some "success")],
          c.name = r → c.conclusion = some "success") :=
  ⟨rfl, by decide,
    skipPullRequest_required_checks cfgChecks prBase
      [CheckRun.mk "ci" (some "success")] [] ["ci"] rfl (by decide)⟩



/-- C5 counterexample: the extraction pattern is NOT applied with
case-insensitive semantics.  With pattern `A(.*)` and body "a hello", the
code's flags "sm" produce no match, so `merge` leaves the body alone, whereas
the claimed case-insensitive semantics would match and replace the body with
"hello". -/
theorem merge_regex_not_case_insensitive :
    (merge cfgRegA prALower [] [] remoteGood).snd.bodyAfterRegex =
      some "a hello" ∧
    regexStepClaim (some patA) "a hello" = Except.ok "hello" :=
  ⟨rfl, rfl⟩

/-- C5 amended: when an extraction pattern is configured, it is applied to
the pull-request body with multiline and dot-all (but case-sensitive)
semantics — flags "sm" — and on a match with a participating first capturing
group the body used from then on, including by commit-message composition, is
the trimmed contents of that group. -/
theorem merge_regex_extraction (cfg : Config) (pr : PullRequest)
    (checks : List CheckRun) (reviews : List Review) (remote : RemoteOutcome)
    (pat : JsPattern) (g : String)
    (hpat : cfg.mergeCommitMessageRegex = some pat)
    (hskip : skipPullRequest cfg pr checks reviews = false)
    (hready : remote.readyResult = true)
    (hexec : jsExec pat (parseFlags "sm") pr.body = some (some g)) :
    (merge cfg pr checks reviews remote).snd.bodyAfterRegex =
      some (jsTrim g) ∧
    ∀ m, (merge cfg pr checks reviews remote).snd.composedMessage = some m →
      m = getCommitMessage cfg.mergeCommitMessage { pr with body := jsTrim g } := by
  simp only [merge, hskip, Bool.false_eq_true, if_false, hready,
    Bool.not_true, regexStep, hpat, hexec]
  split
  · refine ⟨rfl, ?_⟩
    intro m hm
    simp [initEffects] at hm
  · split
    · exact ⟨rfl, by intro m hm; simp only [Option.some.injEq] at hm; exact hm.symm⟩
    · split
      · exact ⟨rfl, by intro m hm; simp only [Option.some.injEq] at hm; exact hm.symm⟩
      · exact ⟨rfl, by intro m hm; simp only [Option.some.injEq] at hm; exact hm.symm⟩

/-- C5 amended witness: pattern `X:(.*)` on body "X:  note " extracts and
trims the capture, so the body becomes "note". -/
theorem merge_regex_extraction_witness :
    cfgRegX.mergeCommitMessageRegex = some patX ∧
    skipPullRequest cfgRegX prXBody [] [] = false ∧
    remoteGood.readyResult = true ∧
    jsExec patX (parseFlags "sm") prXBody.body = some (some "  note ") ∧
    (merge cfgRegX prXBody [] [] remoteGood).snd.bodyAfterRegex =
      some (jsTrim "  note ") :=
  ⟨rfl, by decide, rfl, rfl,
    (merge_regex_extraction cfgRegX prXBody [] [] remoteGood patX "  note "
      rfl (by decide) rfl rfl).1⟩

/-- C6: a configured extraction pattern without a capturing group that
matches the body makes `merge` raise the configuration error, and the merge
call is never attempted. -/
theorem merge_regex_no_group_error (cfg : Config) (pr : PullRequest)
    (checks : List CheckRun) (reviews : List Review) (remote : RemoteOutcome)
    (pat : JsPattern)
    (hpat : cfg.mergeCommitMessageRegex = some pat)
    (hskip : skipPullRequest cfg pr checks reviews = false)
    (hready : remote.readyResult = true)
    (hexec : jsExec pat (parseFlags "sm") pr.body = some none) :
    (merge cfg pr checks reviews remote).fst = .error (regexErrorMsg pat) ∧
    (merge cfg pr checks reviews remote).snd.mergeAttempted = false := by
  simp only [merge, hskip, Bool.false_eq_true, if_false, hready,
    Bool.not_true, regexStep, hpat, hexec]
  constructor <;> trivial

/-- C6 witness: the groupless pattern `X:` against the matching body
"X: note" raises the configuration error and never merges. -/
theorem merge_regex_no_group_error_witness :
    cfgNoGroup.mergeCommitMessageRegex = some patNoGroup ∧
    skipPullRequest cfgNoGroup prXNote [] [] = false ∧
    remoteGood.readyResult = true ∧
    jsExec patNoGroup (parseFlags "sm") prXNote.body = some none ∧
    ((merge cfgNoGroup prXNote [] [] remoteGood).fst =
        .error (regexErrorMsg patNoGroup) ∧
      (merge cfgNoGroup prXNote [] [] remoteGood).snd.mergeAttempted = false) :=
  ⟨rfl, by decide, rfl, rfl,
    merge_regex_no_group_error cfgNoGroup prXNote [] [] remoteGood patNoGroup
      rfl (by decide) rfl rfl⟩

/-- C7: whenever the eligibility check reports a skip, `merge` throws the
skip error if the fail-on-skip flag is set and returns false without
throwing if it is unset. -/
theorem merge_skip_fail_flag (cfg : Config) (pr : PullRequest)
    (checks : List CheckRun) (reviews : List Review) (remote : RemoteOutcome)
    (hskip : skipPullRequest cfg pr checks reviews = true) :
    (cfg.failOnMergeSkip = true →
      (merge cfg pr checks reviews remote).fst = .error skipErrorMsg) ∧
    (cfg.failOnMergeSkip = false →
      (merge cfg pr checks reviews remote).fst = .ok false) := by
  simp only [merge, hskip, if_true]
  constructor
  · intro h; simp [h]
  · intro h; simp [h]

/-- C7 witness: a closed pull request is skipped; with the flag set `merge`
throws, with it unset `merge` returns false. -/
theorem merge_skip_fail_flag_witness :
    skipPullRequest cfgSkipFail prClosed [] [] = true ∧
    (merge cfgSkipFail prClosed [] [] remoteGood).fst = .error skipErrorMsg ∧
    (merge cfgPlain prClosed [] [] remoteGood).fst = .ok false :=
  ⟨by decide,
    (merge_skip_fail_flag cfgSkipFail prClosed [] [] remoteGood (by decide)).1 rfl,
    (merge_skip_fail_flag cfgPlain prClosed [] [] remoteGood (by decide)).2 rfl⟩

/-- C8: once the merge call is confirmed successful, `merge` returns true and
attempts label removal (branch deletion exactly when its flag is set), and
neither the result nor the attempted cleanups depend on whether the cleanup
calls throw — their outcomes are swallowed. -/
theorem merge_cleanup_failures_ignored (cfg : Config) (pr : PullRequest)
    (checks : List CheckRun) (reviews : List Review) (remote : RemoteOutcome)
    (b : String)
    (hskip : skipPullRequest cfg pr checks reviews = false)
    (hready : remote.readyResult = true)
    (hregex : regexStep cfg.mergeCommitMessageRegex pr.body = .ok b)
    (hauthor : (cfg.mergeFilterAuthor != "" &&
      pr.user_login != cfg.mergeFilterAuthor) = false)
    (hmerged : remote.mergeResult = true) :
    (merge cfg pr checks reviews remote).fst = .ok true ∧
    (merge cfg pr checks reviews remote).snd.removeLabelsAttempted = true ∧
    (merge cfg pr checks reviews remote).snd.deleteBranchAttempted =
      cfg.mergeDeleteBranch ∧
    ∀ rE dE, merge cfg pr checks reviews
        { remote with removeLabelsError := rE, deleteBranchError := dE } =
      merge cfg pr checks reviews remote := by
  simp only [merge, hskip, Bool.false_eq_true, if_false, hready,
    Bool.not_true, hregex, hauthor, hmerged]
  refine ⟨?_, ?_, ?_, ?_⟩ <;>
    first
      | trivial
      | (intro rE dE; rfl)
      | (by_cases h : cfg.mergeDeleteBranch = true <;> simp [h, initEffects])

/-- C8 witness: with branch deletion enabled and both cleanup calls
throwing, the merge still reports true and attempts label removal. -/
theorem merge_cleanup_failures_ignored_witness :
    skipPullRequest cfgDel prBase [] [] = false ∧
    regexStep cfgDel.mergeCommitMessageRegex prBase.body = .ok "b" ∧
    ((merge cfgDel prBase [] [] remoteBoom).fst = .ok true ∧
      (merge cfgDel prBase [] [] remoteBoom).snd.removeLabelsAttempted = true) :=
  ⟨by decide, rfl,
    (merge_cleanup_failures_ignored cfgDel prBase [] [] remoteBoom "b"
        (by decide) rfl rfl (by decide) rfl).1,
    (merge_cleanup_failures_ignored cfgDel prBase [] [] remoteBoom "b"
        (by decide) rfl rfl (by decide) rfl).2.1⟩

/-- C10: with an author filter configured and a differing author login,
`merge` returns false — never throwing, whatever the fail-on-skip flag —
without attempting the merge call, and only after the readiness wait has run
and the extraction step has produced the (possibly rewritten) body. -/
theorem merge_author_filter (cfg : Config) (pr : PullRequest)
    (checks : List CheckRun) (reviews : List Review) (remote : RemoteOutcome)
    (b : String)
    (hskip : skipPullRequest cfg pr checks reviews = false)
    (hready : remote.readyResult = true)
    (hregex : regexStep cfg.mergeCommitMessageRegex pr.body = .ok b)
    (hfilter : cfg.mergeFilterAuthor ≠ "")
    (hlogin : pr.user_login ≠ cfg.mergeFilterAuthor) :
    (merge cfg pr checks reviews remote).fst = .ok false ∧
    (merge cfg pr checks reviews remote).snd.mergeAttempted = false ∧
    (merge cfg pr checks reviews remote).snd.readinessWaited = true ∧
    (merge cfg pr checks reviews remote).snd.bodyAfterRegex = some b := by
  have hcond : (cfg.mergeFilterAuthor != "" &&
      pr.user_login != cfg.mergeFilterAuthor) = true := by
    simp only [Bool.and_eq_true, bne_iff_ne, ne_eq]
    exact ⟨hfilter, hlogin⟩
  simp only [merge, hskip, Bool.false_eq_true, if_false, hready,
    Bool.not_true, hregex, hcond, if_true]
  refine ⟨?_, ?_, ?_, ?_⟩ <;> trivial

/-- C10 witness: author filter "bob" with author login "alice" and the
fail-on-skip flag set: `merge` returns false without throwing and without a
merge attempt, after waiting for readiness. -/
theorem merge_author_filter_witness :
    skipPullRequest cfgAuthor prBase [] [] = false ∧
    regexStep cfgAuthor.mergeCommitMessageRegex prBase.body = .ok "b" ∧
    cfgAuthor.failOnMergeSkip = true ∧
    ((merge cfgAuthor prBase [] [] remoteGood).fst = .ok false ∧
      (merge cfgAuthor prBase [] [] remoteGood).snd.mergeAttempted = false) :=
  ⟨by decide, rfl, rfl,
    (merge_author_filter cfgAuthor prBase [] [] remoteGood "b"
        (by decide) rfl rfl (by decide) (by decide)).1,
    (merge_author_filter cfgAuthor prBase [] [] remoteGood "b"
        (by decide) rfl rfl (by decide) (by decide)).2.1⟩



/-- Helper: a successful prefix match leaves a remainder no longer than the
input. -/
theorem dropPrefixCh_length {p s r : List Char} (h : dropPrefixCh p s = some r) :
    r.length ≤ s.length := by
  induction p generalizing s with
  | nil => simp [dropPrefixCh] at h; simp [h]
  | cons a p ih =>
    match s with
    | [] => simp [dropPrefixCh] at h
    | b :: s =>
      simp only [dropPrefixCh] at h
      split at h
      · exact Nat.le_succ_of_le (ih h)
      · exact absurd h (by simp)

/-- Helper: a successful placeholder match strictly shrinks the input. -/
theorem placeholderMatch_length {prop s : List Char} {c : Char} {r : List Char}
    (h : placeholderMatch prop s = some (c, r)) : r.length < s.length := by
  unfold placeholderMatch at h
  cases h1 : dropPrefixCh "pullRequest".data s with
  | none => rw [h1] at h; exact absurd h (by simp)
  | some t =>
    rw [h1] at h
    have ht : t.length ≤ s.length := dropPrefixCh_length h1
    match t, ht with
    | [], _ => exact absurd h (by simp)
    | c' :: t', ht =>
      simp only at h
      split at h
      · exact absurd h (by simp)
      · cases h2 : dropPrefixCh prop t' with
        | none => rw [h2] at h; exact absurd h (by simp)
        | some u =>
          rw [h2] at h
          have hu : u.length ≤ t'.length := dropPrefixCh_length h2
          match u, hu with
          | [], _ => exact absurd h (by simp)
          | d :: v, hu =>
            simp only at h
            split at h
            · simp only [Option.some.injEq, Prod.mk.injEq] at h
              obtain ⟨rfl, rfl⟩ := h
              simp at ht hu ⊢
              omega
            · exact absurd h (by simp)

/-- Helper: on a replacement string without a dollar sign, the JavaScript
substitution of `$`-escapes is the identity. -/
theorem getSubstitution_no_dollar (matched pre post value : List Char)
    (h : dollarCh ∉ value) :
    getSubstitution matched pre post value = value := by
  induction value with
  | nil => rfl
  | cons a rest ih =>
    have ha : a ≠ dollarCh := by
      rintro rfl; exact h (List.mem_cons_self _ _)
    have hrest : dollarCh ∉ rest := fun hx => h (List.mem_cons_of_mem _ hx)
    rw [getSubstitution.eq_def]
    simp only [if_neg ha]
    rw [ih hrest]

/-- Helper: with a dollar-free replacement value, the fueled global
placeholder replacement neither consults the consumed prefix nor expands
escapes, so it agrees with the plain verbatim substitution, independently of
the fuels as long as both cover the input length. -/
theorem replaceGlobalF_no_dollar (prop value : List Char)
    (hval : dollarCh ∉ value) :
    ∀ (f1 f2 : Nat) (s pre : List Char), s.length ≤ f1 → s.length ≤ f2 →
      replaceGlobalF prop value f1 pre s = simpleWildReplaceF prop value f2 s := by
  intro f1
  induction f1 with
  | zero =>
    intro f2 s pre hs1 hs2
    have hnil : s = [] := List.length_eq_zero.mp (Nat.le_zero.mp hs1)
    subst hnil
    cases f2 <;> rfl
  | succ f1 ih =>
    intro f2 s pre hs1 hs2
    match s with
    | [] => cases f2 <;> rfl
    | c :: cs =>
      match f2, hs2 with
      | 0, hs2 => simp at hs2
      | f2 + 1, hs2 =>
        simp only [replaceGlobalF, simpleWildReplaceF]
        by_cases hc : c = braceO
        · simp only [if_pos hc]
          cases hm : placeholderMatch prop cs with
          | some pair =>
            match pair with
            | (w, rest) =>
              simp only
              rw [getSubstitution_no_dollar _ _ _ _ hval]
              have hr := placeholderMatch_length hm
              simp only [List.length_cons] at hs1 hs2
              rw [ih f2 rest _ (by omega) (by omega)]
          | none =>
            simp only
            simp only [List.length_cons] at hs1 hs2
            rw [ih f2 cs _ (by omega) (by omega)]
        · simp only [if_neg hc]
          simp only [List.length_cons] at hs1 hs2
          rw [ih f2 cs _ (by omega) (by omega)]

/-- Helper: wrapper form of `replaceGlobalF_no_dollar`. -/
theorem replaceGlobal_no_dollar (prop value s : List Char)
    (hval : dollarCh ∉ value) :
    replaceGlobal prop value s = simpleWildReplace prop value s :=
  replaceGlobalF_no_dollar prop value hval s.length s.length s [] le_rfl le_rfl

/-- Helper: no decimal digit character is the dollar sign. -/
theorem digitChar_ne_dollar (m : Nat) (hm : m < 10) :
    Nat.digitChar m ≠ dollarCh := by
  interval_cases m <;> decide

/-- Helper: the digit-accumulating core of `Nat.repr` never introduces a
dollar sign. -/
theorem toDigitsCore_no_dollar :
    ∀ (f n : Nat) (ds : List Char), dollarCh ∉ ds →
      dollarCh ∉ Nat.toDigitsCore 10 f n ds := by
  intro f
  induction f with
  | zero => intro n ds h; simpa [Nat.toDigitsCore] using h
  | succ f ih =>
    intro n ds h
    have hd : dollarCh ∉ (Nat.digitChar (n % 10) :: ds) := by
      intro hmem
      rcases List.mem_cons.mp hmem with h1 | h2
      · exact digitChar_ne_dollar _ (Nat.mod_lt _ (by omega)) h1.symm
      · exact h h2
    simp only [Nat.toDigitsCore]
    split
    · exact hd
    · exact ih _ _ hd

/-- Helper: the decimal representation of a natural number contains no
dollar sign. -/
theorem repr_no_dollar (n : Nat) : dollarCh ∉ (toString n).data := by
  show dollarCh ∉ Nat.toDigitsCore 10 (n + 1) n []
  exact toDigitsCore_no_dollar _ _ _ (by simp)

/-- C9 counterexample: the placeholder regex's dot is a wildcard, not a
literal dot: the template `{pullRequest_number}` contains no literal
placeholder, so the claimed literal substitution leaves it unchanged, but
the composer substitutes the pull-request number into it. -/
theorem getCommitMessage_wildcard_dot :
    getCommitMessage tmplWild prBase = some "1" ∧
    getCommitMessageClaim tmplWild prBase = some tmplWild := by
  constructor <;> decide

/-- C9 amended: the composer returns no override for mode automatic, the
title verbatim for pull-request-title, the body for
pull-request-description, title, blank line and body for
pull-request-title-and-description; any other mode is a template in which
every occurrence of an opening brace, `pullRequest`, any single
non-line-terminator character, and `number}` / `title}` / `body}` is
globally replaced by the corresponding field value (sequentially: number,
then title, then body); replacement values are subject to JavaScript
dollar-escape expansion, which is the identity for the dollar-free values
assumed here. -/
theorem getCommitMessage_characterization (mode : String) (pr : PullRequest)
    (htitle : dollarCh ∉ pr.title.data) (hbody : dollarCh ∉ pr.body.data) :
    getCommitMessage mode pr =
      if mode = "automatic" then none
      else if mode = "pull-request-title" then some pr.title
      else if mode = "pull-request-description" then some pr.body
      else if mode = "pull-request-title-and-description" then
        some (pr.title ++ "\n\n" ++ pr.body)
      else
        some (String.mk (simpleWildReplace "body".data pr.body.data
          (simpleWildReplace "title".data pr.title.data
            (simpleWildReplace "number".data (toString pr.number).data
              mode.data)))) := by
  simp only [getCommitMessage, beq_iff_eq]
  by_cases h1 : mode = "automatic"
  · simp [h1]
  · simp only [if_neg h1]
    by_cases h2 : mode = "pull-request-title"
    · simp [h1, h2]
    · simp only [if_neg h2]
      by_cases h3 : mode = "pull-request-description"
      · simp [h1, h2, h3]
      · simp only [if_neg h3]
        by_cases h4 : mode = "pull-request-title-and-description"
        · simp [h1, h2, h3, h4]
        · simp only [if_neg h4]
          rw [replaceGlobal_no_dollar _ _ _ (repr_no_dollar pr.number),
            replaceGlobal_no_dollar _ _ _ htitle,
            replaceGlobal_no_dollar _ _ _ hbody]

/-- C9 amended witness: the template `PR {pullRequest.number}: ok` with
pull-request number 1 composes to "PR 1: ok". -/
theorem getCommitMessage_characterization_witness :
    dollarCh ∉ prBase.title.data ∧ dollarCh ∉ prBase.body.data ∧
    (getCommitMessage tmplDemo prBase =
      if tmplDemo = "automatic" then none
      else if tmplDemo = "pull-request-title" then some prBase.title
      else if tmplDemo = "pull-request-description" then some prBase.body
      else if tmplDemo = "pull-request-title-and-description" then
        some (prBase.title ++ "\n\n" ++ prBase.body)
      else
        some (String.mk (simpleWildReplace "body".data prBase.body.data
          (simpleWildReplace "title".data prBase.title.data
            (simpleWildReplace "number".data (toString prBase.number).data
              tmplDemo.data))))) ∧
    getCommitMessage tmplDemo prBase = some "PR 1: ok" :=
  ⟨by decide, by decide,
    getCommitMessage_characterization tmplDemo prBase (by decide) (by decide),
    by decide⟩


end Automerge
